import Mathlib

/-!
Shallow embedding of the SoftDesk-style issue-tracking backend
(`authentication` and `project_core` Django apps).

Users are identified by their integer primary key.  The relational store
is embedded as lists of records; `get_object_or_404` becomes `List.find?`,
querysets become list filters, and each HTTP handler becomes a pure
function from the store, the authenticated caller and the request payload
to a response together with the post-state of the store.

Server-generated values (autoincrement primary keys, `uuid4` tokens,
`auto_now_add` timestamps) that Django draws from the database sequence,
the random source or the clock are passed in explicitly or computed as a
fresh value over the store, so every definition stays executable.
-/

namespace SoftDesk

/-- HTTP outcome of a handler, as produced by the Django REST framework
views: success with a serialized body (200/201), 204 No Content,
400 validation error, 403 forbidden, 404 not found, and `noResponse`
for a view method that falls through without returning a `Response`
(Django then fails with a server error). -/
inductive HResp (α : Type) where
  | ok : α → HResp α
  | created : α → HResp α
  | noContent : HResp α
  | badRequest : HResp α
  | forbidden : HResp α
  | notFound : HResp α
  | noResponse : HResp α
deriving DecidableEq, Repr

/-- Embeds `project_core.models.Project`: pk, `created_time`, `author` FK,
`name`, `description`, `project_type`. -/
structure ProjectRec where
  id : Nat
  createdTime : Nat
  author : Nat
  name : String
  description : String
  projectType : String
deriving DecidableEq, Repr

/-- Embeds `project_core.models.Contributor`: pk, `created_time`, `user` FK,
`project` FK. -/
structure ContribRec where
  id : Nat
  createdTime : Nat
  user : Nat
  project : Nat
deriving DecidableEq, Repr

/-- Embeds `project_core.models.Issue`: pk, `created_time`, `author` FK,
optional `assignee` FK, `project` FK, the three enumerations and the
text fields. -/
structure IssueRec where
  id : Nat
  createdTime : Nat
  author : Nat
  assignee : Option Nat
  project : Nat
  status : String
  priority : String
  tag : String
  title : String
  description : String
deriving DecidableEq, Repr

/-- Embeds `project_core.models.Comment`: `uuid` primary key, `description`,
`created_time`, `author` FK, `issue` FK.  The UUID token is embedded as
a `Nat`. -/
structure CommentRec where
  uuid : Nat
  description : String
  createdTime : Nat
  author : Nat
  issue : Nat
deriving DecidableEq, Repr

/-- The relational store of the `project_core` app: user pks known to the
user table plus the four entity tables. -/
structure Store where
  users : List Nat
  projects : List ProjectRec
  contributors : List ContribRec
  issues : List IssueRec
  comments : List CommentRec
deriving DecidableEq, Repr

/-- Embeds `Project.TYPE_CHOICES` values. -/
def projectTypeChoices : List String := ["back-end", "front-end", "ios", "android"]

/-- Embeds `Issue.TYPE_STATUS` values. -/
def statusChoices : List String := ["to_do", "in_progress", "finished"]

/-- Embeds `Issue.TYPE_PRIORITY` values. -/
def priorityChoices : List String := ["low", "medium", "high"]

/-- Embeds `Issue.TYPE_TAG` values. -/
def tagChoices : List String := ["bug", "feature", "task"]

/-- Embeds `get_object_or_404(Project, pk=project_id)`. -/
def findProject (s : Store) (pid : Nat) : Option ProjectRec :=
  s.projects.find? (fun p => p.id == pid)

/-- Embeds `get_object_or_404(Issue, pk=issue_id, project=selected_project)`. -/
def findIssueIn (s : Store) (iid pid : Nat) : Option IssueRec :=
  s.issues.find? (fun i => i.id == iid && i.project == pid)

/-- Plain FK dereference `comment.issue` → issue row. -/
def findIssuePk (s : Store) (iid : Nat) : Option IssueRec :=
  s.issues.find? (fun i => i.id == iid)

/-- Embeds `get_object_or_404(Comment, pk=comment_id, issue=selected_issue)`. -/
def findCommentIn (s : Store) (cuid iid : Nat) : Option CommentRec :=
  s.comments.find? (fun c => c.uuid == cuid && c.issue == iid)

/-- Embeds `get_object_or_404(Contributor, pk=contributor_id, project=selected_project)`. -/
def findContribIn (s : Store) (cid pid : Nat) : Option ContribRec :=
  s.contributors.find? (fun c => c.id == cid && c.project == pid)

/-- Embeds `Contributor.objects.filter(user=.., project=..).exists()`. -/
def membershipExists (s : Store) (uid pid : Nat) : Bool :=
  s.contributors.any (fun c => c.user == uid && c.project == pid)

/-- Embeds `permissions.IsContributor.has_object_permission` on a `Project` row. -/
def isContributorProject (s : Store) (caller : Nat) (p : ProjectRec) : Bool :=
  membershipExists s caller p.id

/-- Embeds `permissions.IsContributor.has_object_permission` on an `Issue` row:
membership in `obj.project`. -/
def isContributorIssue (s : Store) (caller : Nat) (i : IssueRec) : Bool :=
  membershipExists s caller i.project

/-- Embeds `permissions.IsContributor.has_object_permission` on a `Comment` row:
membership in `obj.issue.project`, reached by dereferencing the comment's
issue foreign key. -/
def isContributorComment (s : Store) (caller : Nat) (c : CommentRec) : Bool :=
  match findIssuePk s c.issue with
  | some i => membershipExists s caller i.project
  | none => false

/-- Modelled from the spec: the `IsAuthor` permission class imported by
`issue_views.py` and `comment_views.py` is not present in
`project_core/permissions.py`; per the spec's `is_owner(caller, target)`
predicate ("true iff `target.author == caller` — a direct equality
check") and its sibling classes `IsIssueAuthor` / `IsCommentAuthor`, it
holds exactly when the object's author is the requesting user. -/
def isAuthorOf (author caller : Nat) : Bool :=
  author == caller

/-- Embeds `check_object_permissions` on `IssueDetailView`
(`permission_classes = [IsContributor, IsAuthor]`): every listed
permission must grant access, otherwise DRF raises `PermissionDenied`
(HTTP 403). -/
def issueObjectPermission (s : Store) (caller : Nat) (i : IssueRec) : Bool :=
  isContributorIssue s caller i && isAuthorOf i.author caller

/-- Embeds `check_object_permissions` on `CommentDetailView`
(`permission_classes = [IsContributor, IsAuthor]`). -/
def commentObjectPermission (s : Store) (caller : Nat) (c : CommentRec) : Bool :=
  isContributorComment s caller c && isAuthorOf c.author caller

/-- Fresh autoincrement pk for a project row (model of the database
sequence: one more than the largest pk in the table). -/
def nextProjectId (s : Store) : Nat :=
  (s.projects.map ProjectRec.id).foldr max 0 + 1

/-- Fresh autoincrement pk for a contributor row. -/
def nextContribId (s : Store) : Nat :=
  (s.contributors.map ContribRec.id).foldr max 0 + 1

/-- Fresh autoincrement pk for an issue row. -/
def nextIssueId (s : Store) : Nat :=
  (s.issues.map IssueRec.id).foldr max 0 + 1

/-- Request body for `ProjectSerializer` on create / PUT.  `author` and
`createdTime` can be supplied by the client but the serializer declares
them read-only (`read_only_fields = ["author"]`, `auto_now_add`), so they
carry `Option` values that the handlers never consult. -/
structure ProjectPayload where
  name : String
  description : String
  projectType : String
  author : Option Nat
  createdTime : Option Nat
deriving DecidableEq, Repr

/-- Embeds `ProjectSerializer.is_valid()` over the writable fields: `name` is a
required `CharField(max_length=50)`, `description` a required `TextField`,
`project_type` must be one of `TYPE_CHOICES`. -/
def validProjectPayload (pl : ProjectPayload) : Bool :=
  pl.name != "" && pl.name.length ≤ 50 &&
    pl.description != "" && projectTypeChoices.contains pl.projectType

/-- Request body for `ProjectSerializer(partial=True)` on PATCH: every
writable field optional. -/
structure ProjectPatchPayload where
  name : Option String
  description : Option String
  projectType : Option String
  author : Option Nat
  createdTime : Option Nat
deriving DecidableEq, Repr

/-- Embeds `is_valid()` for a partial project update: each supplied writable
field must satisfy its own constraint. -/
def validProjectPatch (pl : ProjectPatchPayload) : Bool :=
  (match pl.name with
   | some n => n != "" && n.length ≤ 50
   | none => true) &&
  (match pl.description with
   | some d => d != ""
   | none => true) &&
  (match pl.projectType with
   | some t => projectTypeChoices.contains t
   | none => true)

/-- Apply a partial project update to a row (serializer `save()` on an
instance: read-only `author`/`created_time`/pk untouched). -/
def applyProjectPatch (p : ProjectRec) (pl : ProjectPatchPayload) : ProjectRec :=
  { p with
    name := pl.name.getD p.name
    description := pl.description.getD p.description
    projectType := pl.projectType.getD p.projectType }

/-- Full project update (PUT): all writable fields replaced; read-only
`author`/`created_time`/pk untouched. -/
def applyProjectPut (p : ProjectRec) (pl : ProjectPayload) : ProjectRec :=
  { p with
    name := pl.name
    description := pl.description
    projectType := pl.projectType }

/-- Replace the project row with the given pk. -/
def updateProject (s : Store) (p : ProjectRec) : Store :=
  { s with projects := s.projects.map (fun q => if q.id == p.id then p else q) }

/-- Embeds `ProjectView.post`: validate, `save(author=request.user)`, then
`Contributor.objects.create(user=request.user, project=new_project)`.
The two inserts are issued without `transaction.atomic`, so under
Django's autocommit each one commits on its own; `membershipFault`
injects a database error raised by the second insert, after the first
has already committed — the exception then propagates out of the view
(`noResponse`). -/
def projectPost (s : Store) (caller now : Nat) (pl : ProjectPayload)
    (membershipFault : Bool) : HResp ProjectRec × Store :=
  if validProjectPayload pl then
    let newProject : ProjectRec :=
      { id := nextProjectId s
        createdTime := now
        author := caller
        name := pl.name
        description := pl.description
        projectType := pl.projectType }
    let s1 : Store := { s with projects := s.projects ++ [newProject] }
    if membershipFault then
      (.noResponse, s1)
    else
      let newContrib : ContribRec :=
        { id := nextContribId s1
          createdTime := now
          user := caller
          project := newProject.id }
      (.created newProject,
        { s1 with contributors := s1.contributors ++ [newContrib] })
  else
    (.badRequest, s)

/-- Embeds `ProjectDetailView.get`: 404 on missing pk, 403 unless the caller has
a membership row for the project, else the serialized project. -/
def projectDetailGet (s : Store) (caller pid : Nat) : HResp ProjectRec × Store :=
  match findProject s pid with
  | none => (.notFound, s)
  | some p =>
    if membershipExists s caller p.id then (.ok p, s)
    else (.forbidden, s)

/-- Embeds `ProjectDetailView.delete`: author-only; deletion cascades to the
project's memberships, issues and the comments of those issues
(`on_delete=CASCADE` along the FK chain). -/
def projectDelete (s : Store) (caller pid : Nat) : HResp Unit × Store :=
  match findProject s pid with
  | none => (.notFound, s)
  | some p =>
    if p.author == caller then
      (.noContent,
        { s with
          projects := s.projects.filter (fun q => !(q.id == p.id))
          contributors := s.contributors.filter (fun c => !(c.project == p.id))
          issues := s.issues.filter (fun i => !(i.project == p.id))
          comments := s.comments.filter (fun c =>
            !((s.issues.filter (fun i => i.project == p.id)).any
              (fun i => i.id == c.issue))) })
    else
      (.forbidden, s)

/-- Embeds `ProjectDetailView.patch`: when the caller is the author, a normal
validate-and-save; when the caller is NOT the author the method body
ends without any `return`, i.e. the view produces no `Response` at all. -/
def projectPatch (s : Store) (caller pid : Nat) (pl : ProjectPatchPayload) :
    HResp ProjectRec × Store :=
  match findProject s pid with
  | none => (.notFound, s)
  | some p =>
    if p.author == caller then
      if validProjectPatch pl then
        let p1 := applyProjectPatch p pl
        (.ok p1, updateProject s p1)
      else (.badRequest, s)
    else
      (.noResponse, s)

/-- Embeds `ProjectDetailView.put`: 403 for a non-author, else full
validate-and-save. -/
def projectPut (s : Store) (caller pid : Nat) (pl : ProjectPayload) :
    HResp ProjectRec × Store :=
  match findProject s pid with
  | none => (.notFound, s)
  | some p =>
    if !(p.author == caller) then (.forbidden, s)
    else if validProjectPayload pl then
      let p1 := applyProjectPut p pl
      (.ok p1, updateProject s p1)
    else (.badRequest, s)

/-- Embeds `ContributorView.post`: 404 on missing project, 403 unless the caller
is the project's author, 400 when the `user` field is absent, 404 when
the referenced user does not exist, 400 when the membership already
exists, else insert the membership row. -/
def contributorPost (s : Store) (caller pid now : Nat) (userField : Option Nat) :
    HResp ContribRec × Store :=
  match findProject s pid with
  | none => (.notFound, s)
  | some p =>
    if !(caller == p.author) then (.forbidden, s)
    else
      match userField with
      | none => (.badRequest, s)
      | some uid =>
        if !(s.users.contains uid) then (.notFound, s)
        else if membershipExists s uid p.id then (.badRequest, s)
        else
          let newContrib : ContribRec :=
            { id := nextContribId s, createdTime := now, user := uid, project := p.id }
          (.created newContrib,
            { s with contributors := s.contributors ++ [newContrib] })

/-- Embeds `ContributorDetailView.delete`: 404 on missing project, 403 unless
the caller is the project's author, 404 when the contributor row does
not exist under the project, 400 when the row belongs to the project's
author, else remove the row. -/
def contributorDelete (s : Store) (caller pid cid : Nat) : HResp Unit × Store :=
  match findProject s pid with
  | none => (.notFound, s)
  | some p =>
    if !(caller == p.author) then (.forbidden, s)
    else
      match findContribIn s cid p.id with
      | none => (.notFound, s)
      | some c =>
        if c.user == p.author then (.badRequest, s)
        else
          (.noContent,
            { s with contributors := s.contributors.filter (fun d => !(d.id == c.id)) })

/-- Request body for `IssueSerializer` on create / PUT.  `createdTime`,
`author` and `project` are declared in `read_only_fields`, so
client-supplied values for them are carried but never consulted.
`assignee` is an optional FK (`null=True, blank=True`). -/
structure IssuePayload where
  title : String
  description : String
  status : String
  priority : String
  tag : String
  assignee : Option Nat
  author : Option Nat
  project : Option Nat
  createdTime : Option Nat
deriving DecidableEq, Repr

/-- Embeds `IssueSerializer.is_valid()` over the writable fields: required
bounded `title`, required `description`, the three enumerations, and an
`assignee` that — when given — must reference an existing user
(`PrimaryKeyRelatedField` queryset validation). -/
def validIssuePayload (s : Store) (pl : IssuePayload) : Bool :=
  pl.title != "" && pl.title.length ≤ 50 && pl.description != "" &&
    statusChoices.contains pl.status &&
    priorityChoices.contains pl.priority &&
    tagChoices.contains pl.tag &&
    (match pl.assignee with
     | some uid => s.users.contains uid
     | none => true)

/-- Request body for `IssueSerializer(partial=True)` on PATCH: every
writable field optional; `assignee := some none` models an explicit
`null`. -/
structure IssuePatchPayload where
  title : Option String
  description : Option String
  status : Option String
  priority : Option String
  tag : Option String
  assignee : Option (Option Nat)
  author : Option Nat
  project : Option Nat
  createdTime : Option Nat
deriving DecidableEq, Repr

/-- Embeds `is_valid()` for a partial issue update. -/
def validIssuePatch (s : Store) (pl : IssuePatchPayload) : Bool :=
  (match pl.title with
   | some t => t != "" && t.length ≤ 50
   | none => true) &&
  (match pl.description with
   | some d => d != ""
   | none => true) &&
  (match pl.status with
   | some v => statusChoices.contains v
   | none => true) &&
  (match pl.priority with
   | some v => priorityChoices.contains v
   | none => true) &&
  (match pl.tag with
   | some v => tagChoices.contains v
   | none => true) &&
  (match pl.assignee with
   | some (some uid) => s.users.contains uid
   | _ => true)

/-- Replace the issue row with the given pk. -/
def updateIssue (s : Store) (i : IssueRec) : Store :=
  { s with issues := s.issues.map (fun j => if j.id == i.id then i else j) }

/-- Embeds `IssueView.post`: 404 on missing project, 403 unless the caller is a
contributor, then validate and `save(project=selected_project,
author=request.user)`. -/
def issuePost (s : Store) (caller pid now : Nat) (pl : IssuePayload) :
    HResp IssueRec × Store :=
  match findProject s pid with
  | none => (.notFound, s)
  | some p =>
    if !(membershipExists s caller p.id) then (.forbidden, s)
    else if validIssuePayload s pl then
      let newIssue : IssueRec :=
        { id := nextIssueId s
          createdTime := now
          author := caller
          assignee := pl.assignee
          project := p.id
          status := pl.status
          priority := pl.priority
          tag := pl.tag
          title := pl.title
          description := pl.description }
      (.created newIssue, { s with issues := s.issues ++ [newIssue] })
    else (.badRequest, s)

/-- Embeds `IssueDetailView.get`: resolve project then issue (404 on either
miss), then `check_object_permissions` with
`[IsContributor, IsAuthor]` — both must pass, otherwise 403. -/
def issueDetailGet (s : Store) (caller pid iid : Nat) : HResp IssueRec × Store :=
  match findProject s pid with
  | none => (.notFound, s)
  | some p =>
    match findIssueIn s iid p.id with
    | none => (.notFound, s)
    | some i =>
      if issueObjectPermission s caller i then (.ok i, s)
      else (.forbidden, s)

/-- Embeds `IssueDetailView.delete`: same resolution and object-permission
check, then delete the row (comments cascade with the issue). -/
def issueDelete (s : Store) (caller pid iid : Nat) : HResp Unit × Store :=
  match findProject s pid with
  | none => (.notFound, s)
  | some p =>
    match findIssueIn s iid p.id with
    | none => (.notFound, s)
    | some i =>
      if issueObjectPermission s caller i then
        (.noContent,
          { s with
            issues := s.issues.filter (fun j => !(j.id == i.id))
            comments := s.comments.filter (fun c => !(c.issue == i.id)) })
      else (.forbidden, s)

/-- Embeds `IssueDetailView.patch`: resolution, object permissions, then a
partial validate and `save(author=request.user,
project=selected_project)` — the save re-injects the caller as author
and the resolved project. -/
def issuePatch (s : Store) (caller pid iid : Nat) (pl : IssuePatchPayload) :
    HResp IssueRec × Store :=
  match findProject s pid with
  | none => (.notFound, s)
  | some p =>
    match findIssueIn s iid p.id with
    | none => (.notFound, s)
    | some i =>
      if issueObjectPermission s caller i then
        if validIssuePatch s pl then
          let i1 : IssueRec :=
            { i with
              title := pl.title.getD i.title
              description := pl.description.getD i.description
              status := pl.status.getD i.status
              priority := pl.priority.getD i.priority
              tag := pl.tag.getD i.tag
              assignee := pl.assignee.getD i.assignee
              author := caller
              project := p.id }
          (.ok i1, updateIssue s i1)
        else (.badRequest, s)
      else (.forbidden, s)

/-- Embeds `IssueDetailView.put`: resolution, object permissions, then a full
validate and `save(author=request.user, project=selected_project)`. -/
def issuePut (s : Store) (caller pid iid : Nat) (pl : IssuePayload) :
    HResp IssueRec × Store :=
  match findProject s pid with
  | none => (.notFound, s)
  | some p =>
    match findIssueIn s iid p.id with
    | none => (.notFound, s)
    | some i =>
      if issueObjectPermission s caller i then
        if validIssuePayload s pl then
          let i1 : IssueRec :=
            { i with
              title := pl.title
              description := pl.description
              status := pl.status
              priority := pl.priority
              tag := pl.tag
              assignee := pl.assignee
              author := caller
              project := p.id }
          (.ok i1, updateIssue s i1)
        else (.badRequest, s)
      else (.forbidden, s)

/-- Request body for `CommentSerializer` on create / PUT: `description`
is the only writable field (`uuid`, `created_time`, `author`, `issue`
are read-only); client-supplied values for the read-only fields are
carried but never consulted. -/
structure CommentPayload where
  description : String
  uuid : Option Nat
  author : Option Nat
  issue : Option Nat
  createdTime : Option Nat
deriving DecidableEq, Repr

/-- Embeds `CommentSerializer.is_valid()`: `description` is required and may
not be blank. -/
def validCommentPayload (pl : CommentPayload) : Bool :=
  pl.description != ""

/-- Request body for `CommentSerializer(partial=True)` on PATCH. -/
structure CommentPatchPayload where
  description : Option String
  uuid : Option Nat
  author : Option Nat
  issue : Option Nat
  createdTime : Option Nat
deriving DecidableEq, Repr

/-- Embeds `is_valid()` for a partial comment update. -/
def validCommentPatch (pl : CommentPatchPayload) : Bool :=
  match pl.description with
  | some d => d != ""
  | none => true

/-- Replace the comment row with the given uuid. -/
def updateComment (s : Store) (c : CommentRec) : Store :=
  { s with comments := s.comments.map (fun d => if d.uuid == c.uuid then c else d) }

/-- Embeds `CommentView.post`: resolve project and issue (404), 403 unless the
caller is a contributor of the project, then validate and
`save(issue=selected_issue, author=request.user)`.  `freshUuid` stands
for the `uuid4` token drawn by the model field default. -/
def commentPost (s : Store) (caller pid iid now freshUuid : Nat)
    (pl : CommentPayload) : HResp CommentRec × Store :=
  match findProject s pid with
  | none => (.notFound, s)
  | some p =>
    match findIssueIn s iid p.id with
    | none => (.notFound, s)
    | some i =>
      if !(membershipExists s caller p.id) then (.forbidden, s)
      else if validCommentPayload pl then
        let newComment : CommentRec :=
          { uuid := freshUuid
            description := pl.description
            createdTime := now
            author := caller
            issue := i.id }
        (.created newComment, { s with comments := s.comments ++ [newComment] })
      else (.badRequest, s)

/-- Embeds `CommentDetailView.get`: resolve project, issue, comment (404 on any
miss), then `check_object_permissions` with `[IsContributor, IsAuthor]`
— both must pass, otherwise 403. -/
def commentDetailGet (s : Store) (caller pid iid cuid : Nat) :
    HResp CommentRec × Store :=
  match findProject s pid with
  | none => (.notFound, s)
  | some p =>
    match findIssueIn s iid p.id with
    | none => (.notFound, s)
    | some i =>
      match findCommentIn s cuid i.id with
      | none => (.notFound, s)
      | some c =>
        if commentObjectPermission s caller c then (.ok c, s)
        else (.forbidden, s)

/-- Embeds `CommentDetailView.delete`: same resolution and object-permission
check, then delete the row. -/
def commentDelete (s : Store) (caller pid iid cuid : Nat) : HResp Unit × Store :=
  match findProject s pid with
  | none => (.notFound, s)
  | some p =>
    match findIssueIn s iid p.id with
    | none => (.notFound, s)
    | some i =>
      match findCommentIn s cuid i.id with
      | none => (.notFound, s)
      | some c =>
        if commentObjectPermission s caller c then
          (.noContent,
            { s with comments := s.comments.filter (fun d => !(d.uuid == c.uuid)) })
        else (.forbidden, s)

/-- Embeds `CommentDetailView.patch`: resolution, object permissions, partial
validate and plain `save()` (read-only fields untouched). -/
def commentPatch (s : Store) (caller pid iid cuid : Nat)
    (pl : CommentPatchPayload) : HResp CommentRec × Store :=
  match findProject s pid with
  | none => (.notFound, s)
  | some p =>
    match findIssueIn s iid p.id with
    | none => (.notFound, s)
    | some i =>
      match findCommentIn s cuid i.id with
      | none => (.notFound, s)
      | some c =>
        if commentObjectPermission s caller c then
          if validCommentPatch pl then
            let c1 : CommentRec := { c with description := pl.description.getD c.description }
            (.ok c1, updateComment s c1)
          else (.badRequest, s)
        else (.forbidden, s)

/-- Embeds `CommentDetailView.put`: resolution, object permissions, full
validate and plain `save()`. -/
def commentPut (s : Store) (caller pid iid cuid : Nat)
    (pl : CommentPayload) : HResp CommentRec × Store :=
  match findProject s pid with
  | none => (.notFound, s)
  | some p =>
    match findIssueIn s iid p.id with
    | none => (.notFound, s)
    | some i =>
      match findCommentIn s cuid i.id with
      | none => (.notFound, s)
      | some c =>
        if commentObjectPermission s caller c then
          if validCommentPayload pl then
            let c1 : CommentRec := { c with description := pl.description }
            (.ok c1, updateComment s c1)
          else (.badRequest, s)
        else (.forbidden, s)

/-- A calendar date as consumed by
`CustomUserSerializer.validate_date_birth`. -/
structure Date where
  year : Nat
  month : Nat
  day : Nat
deriving DecidableEq, Repr

/-- Python's `(today.month, today.day) < (birth.month, birth.day)` —
lexicographic tuple comparison: the birthday has not yet occurred this
year. -/
def birthdayPending (today birth : Date) : Bool :=
  today.month < birth.month || (today.month == birth.month && today.day < birth.day)

/-- The age computed by `validate_date_birth`:
`today.year - input.year`, minus one when the birthday is still
pending this year (Python integers, hence `Int`). -/
def computeAge (today birth : Date) : Int :=
  ((today.year : Int) - (birth.year : Int)) -
    (if birthdayPending today birth then 1 else 0)

/-- Embeds `CustomUserSerializer.validate_date_birth`: raises `ValidationError`
exactly when the computed age is below 15, otherwise accepts the date. -/
def validateDateBirth (today birth : Date) : Bool :=
  !(computeAge today birth < 15)

/-- Embeds `authentication.models.CustomUser`: pk, unique `username`, the
`AbstractUser` name fields, `date_birth` and the two consent flags. -/
structure UserRec where
  id : Nat
  username : String
  firstName : String
  lastName : String
  dateBirth : Date
  canBeContacted : Bool
  canDataBeShared : Bool
deriving DecidableEq, Repr

/-- Request body for `CustomUserSerializer` on create / PUT over its
declared fields (pk is read-only on a `ModelSerializer`). -/
structure UserPayload where
  username : String
  firstName : String
  lastName : String
  dateBirth : Date
  canBeContacted : Bool
  canDataBeShared : Bool
deriving DecidableEq, Repr

/-- Embeds `CustomUserSerializer.is_valid()` on create: `username` required,
bounded (`max_length=150`) and unique in the table (the
`ModelSerializer` adds a `UniqueValidator` for the unique model field),
and `validate_date_birth` must accept the birth date. -/
def validUserPayload (users : List UserRec) (today : Date) (pl : UserPayload) : Bool :=
  pl.username != "" && pl.username.length ≤ 150 &&
    !(users.any (fun u => u.username == pl.username)) &&
    validateDateBirth today pl.dateBirth

/-- Fresh autoincrement pk for a user row. -/
def nextUserId (users : List UserRec) : Nat :=
  (users.map UserRec.id).foldr max 0 + 1

/-- Embeds `CustomUserView.post` (registration, open to anonymous callers):
validate and save, 400 on a validation error. -/
def userPost (users : List UserRec) (today : Date) (pl : UserPayload) :
    HResp UserRec × List UserRec :=
  if validUserPayload users today pl then
    let newUser : UserRec :=
      { id := nextUserId users
        username := pl.username
        firstName := pl.firstName
        lastName := pl.lastName
        dateBirth := pl.dateBirth
        canBeContacted := pl.canBeContacted
        canDataBeShared := pl.canDataBeShared }
    (.created newUser, users ++ [newUser])
  else
    (.badRequest, users)

/-- Embeds `CustomUserView.get`: the full user table, serialized, for any
authenticated caller — the handler never consults `request.user`. -/
def userListGet (users : List UserRec) (caller : Nat) : HResp (List UserRec) × List UserRec :=
  let _ := caller
  (.ok users, users)

/-- Embeds `get_object_or_404(CustomUser, pk=user_id)`. -/
def findUser (users : List UserRec) (uid : Nat) : Option UserRec :=
  users.find? (fun u => u.id == uid)

/-- Embeds `CustomUserDetailView.get`: resolve by pk and serialize; no
ownership predicate — `request.user` is never consulted. -/
def userDetailGet (users : List UserRec) (caller uid : Nat) :
    HResp UserRec × List UserRec :=
  let _ := caller
  match findUser users uid with
  | none => (.notFound, users)
  | some u => (.ok u, users)

/-- Request body for `CustomUserSerializer(partial=True)` on PATCH. -/
structure UserPatchPayload where
  username : Option String
  firstName : Option String
  lastName : Option String
  dateBirth : Option Date
  canBeContacted : Option Bool
  canDataBeShared : Option Bool
deriving DecidableEq, Repr

/-- Embeds `is_valid()` for a partial user update: a supplied `username` must be
non-blank, bounded and unique among the OTHER rows (the
`UniqueValidator` excludes the updated instance); a supplied
`date_birth` runs `validate_date_birth`. -/
def validUserPatch (users : List UserRec) (today : Date) (target : UserRec)
    (pl : UserPatchPayload) : Bool :=
  (match pl.username with
   | some n =>
     n != "" && n.length ≤ 150 &&
       !(users.any (fun u => u.username == n && !(u.id == target.id)))
   | none => true) &&
  (match pl.dateBirth with
   | some b => validateDateBirth today b
   | none => true)

/-- Embeds `CustomUserDetailView.patch`: resolve by pk, partial validate and
save; no ownership predicate — `request.user` is never consulted. -/
def userPatch (users : List UserRec) (today : Date) (caller uid : Nat)
    (pl : UserPatchPayload) : HResp UserRec × List UserRec :=
  let _ := caller
  match findUser users uid with
  | none => (.notFound, users)
  | some u =>
    if validUserPatch users today u pl then
      let u1 : UserRec :=
        { u with
          username := pl.username.getD u.username
          firstName := pl.firstName.getD u.firstName
          lastName := pl.lastName.getD u.lastName
          dateBirth := pl.dateBirth.getD u.dateBirth
          canBeContacted := pl.canBeContacted.getD u.canBeContacted
          canDataBeShared := pl.canDataBeShared.getD u.canDataBeShared }
      (.ok u1, users.map (fun v => if v.id == u.id then u1 else v))
    else (.badRequest, users)

/-- Embeds `is_valid()` for a full user update (PUT): all required fields
supplied, uniqueness excluding the updated instance, birth date
validated. -/
def validUserPut (users : List UserRec) (today : Date) (target : UserRec)
    (pl : UserPayload) : Bool :=
  pl.username != "" && pl.username.length ≤ 150 &&
    !(users.any (fun u => u.username == pl.username && !(u.id == target.id))) &&
    validateDateBirth today pl.dateBirth

/-- Embeds `CustomUserDetailView.put`: resolve by pk, full validate and save;
no ownership predicate — `request.user` is never consulted. -/
def userPut (users : List UserRec) (today : Date) (caller uid : Nat)
    (pl : UserPayload) : HResp UserRec × List UserRec :=
  let _ := caller
  match findUser users uid with
  | none => (.notFound, users)
  | some u =>
    if validUserPut users today u pl then
      let u1 : UserRec :=
        { u with
          username := pl.username
          firstName := pl.firstName
          lastName := pl.lastName
          dateBirth := pl.dateBirth
          canBeContacted := pl.canBeContacted
          canDataBeShared := pl.canDataBeShared }
      (.ok u1, users.map (fun v => if v.id == u.id then u1 else v))
    else (.badRequest, users)

/-- Embeds `CustomUserDetailView.delete`: resolve by pk and delete; no
ownership predicate — `request.user` is never consulted. -/
def userDelete (users : List UserRec) (caller uid : Nat) :
    HResp Unit × List UserRec :=
  let _ := caller
  match findUser users uid with
  | none => (.notFound, users)
  | some u => (.noContent, users.filter (fun v => !(v.id == u.id)))

/-- No two contributor rows link the same user to the same project —
the `unique_together = ("user", "project")` invariant. -/
def membershipPairsUnique (contributors : List ContribRec) : Prop :=
  (contributors.map (fun c => (c.user, c.project))).Nodup

instance (contributors : List ContribRec) :
    Decidable (membershipPairsUnique contributors) := by
  unfold membershipPairsUnique
  infer_instance

/-! Concrete fixture: project 1 authored by user 1, users 1 and 2 both
contributors, issue 1 and comment 7 authored by user 1 — the setting of
the repository's own test setUp plus one extra contributor. -/

/-- Fixture project: pk 1, author user 1. -/
def fixProject : ProjectRec :=
  { id := 1, createdTime := 0, author := 1, name := "Website",
    description := "site", projectType := "back-end" }

/-- Fixture issue: pk 1 in project 1, author user 1. -/
def fixIssue : IssueRec :=
  { id := 1, createdTime := 0, author := 1, assignee := none, project := 1,
    status := "to_do", priority := "medium", tag := "feature",
    title := "Bug 1", description := "first bug" }

/-- Fixture comment: uuid 7 on issue 1, author user 1. -/
def fixComment : CommentRec :=
  { uuid := 7, description := "note", createdTime := 0, author := 1, issue := 1 }

/-- Fixture store: users 1, 2, 3; users 1 and 2 are contributors of
project 1 (rows 1 and 2); user 3 is no contributor. -/
def fixStore : Store :=
  { users := [1, 2, 3]
    projects := [fixProject]
    contributors :=
      [{ id := 1, createdTime := 0, user := 1, project := 1 },
       { id := 2, createdTime := 0, user := 2, project := 1 }]
    issues := [fixIssue]
    comments := [fixComment] }

/-- Fixture partial issue update: change the status only. -/
def fixIssuePatchPl : IssuePatchPayload :=
  { title := none, description := none, status := some "in_progress",
    priority := none, tag := none, assignee := none,
    author := none, project := none, createdTime := none }

/-- Fixture partial comment update: change the description only. -/
def fixCommentPatchPl : CommentPatchPayload :=
  { description := some "edited", uuid := none, author := none,
    issue := none, createdTime := none }

/-- Fixture full issue payload. -/
def fixIssuePl : IssuePayload :=
  { title := "Bug 2", description := "second bug", status := "to_do",
    priority := "low", tag := "bug", assignee := some 2,
    author := none, project := none, createdTime := none }

/-- Fixture full comment payload. -/
def fixCommentPl : CommentPayload :=
  { description := "reply", uuid := none, author := none,
    issue := none, createdTime := none }

/-- Fixture full project payload. -/
def fixProjectPl : ProjectPayload :=
  { name := "Mobile", description := "app", projectType := "android",
    author := none, createdTime := none }

/-- Fixture partial project update: change the name only. -/
def fixProjectPatchPl : ProjectPatchPayload :=
  { name := some "Website v2", description := none, projectType := none,
    author := none, createdTime := none }

end SoftDesk

namespace SoftDesk

/-- C1: the claim says membership alone lets an authenticated user read a
single issue or comment (status 200).  The code, however, runs
`check_object_permissions` with `[IsContributor, IsAuthor]` on GET, so a
contributor who is not the author is rejected with 403 — contradicting
the view docstrings ("tous les contributeurs peuvent consulter", "403 si
l'utilisateur n'est pas contributeur du projet").  Evaluated at the
fixture: user 2 holds a membership for project 1 yet is not the author
of issue 1 or comment 7, and both single-entity reads return Forbidden
instead of the entity. -/
theorem issue_comment_read_requires_authorship :
    membershipExists fixStore 2 1 = true ∧
      fixIssue.author ≠ 2 ∧ fixComment.author ≠ 2 ∧
      issueDetailGet fixStore 2 1 1 = (.forbidden, fixStore) ∧
      commentDetailGet fixStore 2 1 1 7 = (.forbidden, fixStore) := by
  decide

/-- C3: `ProjectView.post` issues its two inserts without
`transaction.atomic`, so with a database error injected at the
membership insert the already-committed project survives with no
membership row — the non-faulting run does produce the author's single
membership, but the pair of writes is not atomic. -/
theorem project_create_membership_not_atomic :
    (let run := projectPost fixStore 3 9
        { name := "API", description := "rest api", projectType := "ios",
          author := none, createdTime := none } false
     (run.snd.contributors.filter
        (fun c => c.user == 3 && c.project == nextProjectId fixStore)).length = 1 ∧
       (findProject run.snd (nextProjectId fixStore)).map ProjectRec.author = some 3) ∧
    (let faulted := projectPost fixStore 3 9
        { name := "API", description := "rest api", projectType := "ios",
          author := none, createdTime := none } true
     (findProject faulted.snd (nextProjectId fixStore)).isSome = true ∧
       membershipExists faulted.snd 3 (nextProjectId fixStore) = false) := by
  decide

/-- C4: the claim (and the repository's own tests
`test_patch_project_as_contributor` / `as_non_contributor`) expect a
Forbidden signal when a non-author updates a project, but
`ProjectDetailView.patch` has no `else` branch for the non-author case:
the method returns no `Response` at all (Django then errors out).  The
project is left unchanged, and DELETE does return Forbidden. -/
theorem project_patch_non_author_returns_nothing :
    fixProject.author ≠ 2 ∧
      projectPatch fixStore 2 1
          { name := some "Hacked", description := none, projectType := none,
            author := none, createdTime := none } =
        (.noResponse, fixStore) ∧
      (HResp.noResponse : HResp ProjectRec) ≠ .forbidden ∧
      projectDelete fixStore 2 1 = (.forbidden, fixStore) := by
  decide

/-- C5 counterexample: the claim says removing the project author's
membership fails with a ValidationError signal "regardless of which
caller issues the request", but `ContributorDetailView.delete` checks
authorship of the caller first: user 2, not the author of project 1,
targets membership row 1 (the author's own membership) and receives
Forbidden, not the 400 ValidationError signal. -/
theorem remove_author_membership_non_author_caller_forbidden :
    (findContribIn fixStore 1 1).map ContribRec.user = some fixProject.author ∧
      contributorDelete fixStore 2 1 1 = (.forbidden, fixStore) ∧
      (HResp.forbidden : HResp Unit) ≠ .badRequest := by
  decide

/-- Passing the issue object-permission check forces authorship. -/
theorem issuePerm_author {s : Store} {caller : Nat} {i : IssueRec}
    (h : issueObjectPermission s caller i = true) : i.author = caller := by
  unfold issueObjectPermission isAuthorOf at h
  rw [Bool.and_eq_true] at h
  exact eq_of_beq h.2

/-- A non-author always fails the issue object-permission check. -/
theorem issuePerm_false_of_ne {s : Store} {caller : Nat} {i : IssueRec}
    (h : i.author ≠ caller) : issueObjectPermission s caller i = false := by
  unfold issueObjectPermission isAuthorOf
  simp [h]

/-- Passing the comment object-permission check forces authorship. -/
theorem commentPerm_author {s : Store} {caller : Nat} {c : CommentRec}
    (h : commentObjectPermission s caller c = true) : c.author = caller := by
  unfold commentObjectPermission isAuthorOf at h
  rw [Bool.and_eq_true] at h
  exact eq_of_beq h.2

/-- A non-author always fails the comment object-permission check. -/
theorem commentPerm_false_of_ne {s : Store} {caller : Nat} {c : CommentRec}
    (h : c.author ≠ caller) : commentObjectPermission s caller c = false := by
  unfold commentObjectPermission isAuthorOf
  simp [h]

/-- C2: once the target issue/comment resolves, a mutation (partial or
full update, delete) succeeds only when the caller is the entity's
author, and every non-author caller — contributor or not — receives
Forbidden with the store unchanged. -/
theorem issue_comment_mutation_author_only
    (s : Store) (caller pid iid cuid : Nat)
    (p : ProjectRec) (i : IssueRec) (c : CommentRec)
    (plI : IssuePatchPayload) (plIF : IssuePayload)
    (plC : CommentPatchPayload) (plCF : CommentPayload)
    (hp : findProject s pid = some p)
    (hi : findIssueIn s iid p.id = some i)
    (hc : findCommentIn s cuid i.id = some c) :
    ((issueDelete s caller pid iid).fst = .noContent → i.author = caller) ∧
    (i.author ≠ caller →
      issueDelete s caller pid iid = (.forbidden, s) ∧
      issuePatch s caller pid iid plI = (.forbidden, s) ∧
      issuePut s caller pid iid plIF = (.forbidden, s)) ∧
    (∀ x s2, issuePatch s caller pid iid plI = (.ok x, s2) → i.author = caller) ∧
    ((commentDelete s caller pid iid cuid).fst = .noContent → c.author = caller) ∧
    (c.author ≠ caller →
      commentDelete s caller pid iid cuid = (.forbidden, s) ∧
      commentPatch s caller pid iid cuid plC = (.forbidden, s) ∧
      commentPut s caller pid iid cuid plCF = (.forbidden, s)) ∧
    (∀ x s2, commentPatch s caller pid iid cuid plC = (.ok x, s2) → c.author = caller) := by
  refine ⟨?_, ?_, ?_, ?_, ?_, ?_⟩
  · intro hres
    by_cases hperm : issueObjectPermission s caller i
    · exact issuePerm_author hperm
    · simp only [issueDelete, hp, hi, hperm, Bool.false_eq_true, if_false] at hres
      exact HResp.noConfusion hres
  · intro hne
    have hperm := @issuePerm_false_of_ne s caller i hne
    refine ⟨?_, ?_, ?_⟩
    · simp only [issueDelete, hp, hi, hperm, Bool.false_eq_true, if_false]
    · simp only [issuePatch, hp, hi, hperm, Bool.false_eq_true, if_false]
    · simp only [issuePut, hp, hi, hperm, Bool.false_eq_true, if_false]
  · intro x s2 hres
    by_cases hperm : issueObjectPermission s caller i
    · exact issuePerm_author hperm
    · simp only [issuePatch, hp, hi, hperm, Bool.false_eq_true, if_false,
        Prod.mk.injEq] at hres
      exact HResp.noConfusion hres.1
  · intro hres
    by_cases hperm : commentObjectPermission s caller c
    · exact commentPerm_author hperm
    · simp only [commentDelete, hp, hi, hc, hperm, Bool.false_eq_true, if_false] at hres
      exact HResp.noConfusion hres
  · intro hne
    have hperm := @commentPerm_false_of_ne s caller c hne
    refine ⟨?_, ?_, ?_⟩
    · simp only [commentDelete, hp, hi, hc, hperm, Bool.false_eq_true, if_false]
    · simp only [commentPatch, hp, hi, hc, hperm, Bool.false_eq_true, if_false]
    · simp only [commentPut, hp, hi, hc, hperm, Bool.false_eq_true, if_false]
  · intro x s2 hres
    by_cases hperm : commentObjectPermission s caller c
    · exact commentPerm_author hperm
    · simp only [commentPatch, hp, hi, hc, hperm, Bool.false_eq_true, if_false,
        Prod.mk.injEq] at hres
      exact HResp.noConfusion hres.1

/-- C2 witness: at the fixture, contributor user 2 — not the author of
issue 1 or comment 7 — is rejected with Forbidden on both deletes and
the store is untouched. -/
theorem issue_comment_mutation_author_only_witness :
    issueDelete fixStore 2 1 1 = (.forbidden, fixStore) ∧
      commentDelete fixStore 2 1 1 7 = (.forbidden, fixStore) := by
  have h := issue_comment_mutation_author_only fixStore 2 1 1 7 fixProject fixIssue
    fixComment fixIssuePatchPl fixIssuePl fixCommentPatchPl fixCommentPl
    (by decide) (by decide) (by decide)
  exact ⟨(h.2.1 (by decide)).1, (h.2.2.2.2.1 (by decide)).1⟩

/-- C5 (amended): once the target membership row resolves and belongs to
the project's author, the removal always fails and the membership
survives — with the 400 ValidationError signal when the caller is the
project's author, and with Forbidden (raised by the earlier authorship
gate) for every other caller. -/
theorem remove_author_membership_never_removes
    (s : Store) (caller pid cid : Nat) (p : ProjectRec) (c : ContribRec)
    (hp : findProject s pid = some p)
    (hc : findContribIn s cid p.id = some c)
    (hauthor : c.user = p.author) :
    (caller = p.author → contributorDelete s caller pid cid = (.badRequest, s)) ∧
    (caller ≠ p.author → contributorDelete s caller pid cid = (.forbidden, s)) := by
  constructor
  · intro he
    have hbe : (caller == p.author) = true := by simp [he]
    simp only [contributorDelete, hp, hbe, Bool.not_true, Bool.false_eq_true,
      if_false, hc]
    simp [hauthor]
  · intro hne
    have hbe : (caller == p.author) = false := by simp [hne]
    simp only [contributorDelete, hp, hbe, Bool.not_false, if_true]

/-- C5 witness: at the fixture, the author (user 1) deleting membership
row 1 (their own) receives the 400 signal; outsider user 3 receives
Forbidden; the membership table is unchanged both times. -/
theorem remove_author_membership_never_removes_witness :
    contributorDelete fixStore 1 1 1 = (.badRequest, fixStore) ∧
      contributorDelete fixStore 3 1 1 = (.forbidden, fixStore) := by
  have h1 := remove_author_membership_never_removes fixStore 1 1 1 fixProject
    { id := 1, createdTime := 0, user := 1, project := 1 }
    (by decide) (by decide) (by decide)
  have h3 := remove_author_membership_never_removes fixStore 3 1 1 fixProject
    { id := 1, createdTime := 0, user := 1, project := 1 }
    (by decide) (by decide) (by decide)
  exact ⟨h1.1 (by decide), h3.2 (by decide)⟩

/-- A `(user, project)` pair that the `exists()` check reports absent is
not among the membership pairs of the store. -/
theorem pair_not_mem_of_not_exists {s : Store} {uid q : Nat}
    (h : membershipExists s uid q = false) :
    (uid, q) ∉ s.contributors.map (fun c => (c.user, c.project)) := by
  unfold membershipExists at h
  intro hmem
  rw [List.mem_map] at hmem
  obtain ⟨c, hc, heq⟩ := hmem
  rw [List.any_eq_false] at h
  apply h c hc
  simp only [Prod.mk.injEq] at heq
  simp [heq.1, heq.2]

/-- Embeds `ContributorView.post` preserves uniqueness of the membership pairs:
the only branch that inserts a row first checks `exists()` on the very
pair it inserts. -/
theorem contributorPost_preserves_unique
    (s : Store) (caller pid now : Nat) (userField : Option Nat)
    (hu : membershipPairsUnique s.contributors) :
    membershipPairsUnique
      (contributorPost s caller pid now userField).snd.contributors := by
  unfold contributorPost
  cases hfp : findProject s pid with
  | none => exact hu
  | some p =>
    by_cases hauth : (caller == p.author) = true
    · simp only [hauth, Bool.not_true, Bool.false_eq_true, if_false]
      cases userField with
      | none => exact hu
      | some uid =>
        by_cases huser : (s.users.contains uid) = true
        · simp only [huser, Bool.not_true, Bool.false_eq_true, if_false]
          by_cases hdup : membershipExists s uid p.id = true
          · simp only [hdup, if_true]
            exact hu
          · rw [Bool.not_eq_true] at hdup
            simp only [hdup, Bool.false_eq_true, if_false]
            unfold membershipPairsUnique at hu ⊢
            rw [List.map_append, List.nodup_append]
            refine ⟨hu, by simp, ?_⟩
            intro x hx hx2
            simp only [List.map_cons, List.map_nil, List.mem_singleton] at hx2
            subst hx2
            exact pair_not_mem_of_not_exists hdup hx
        · rw [Bool.not_eq_true] at huser
          simp only [huser, Bool.not_false, if_true]
          exact hu
    · rw [Bool.not_eq_true] at hauth
      simp only [hauth, Bool.not_false, if_true]
      exact hu

/-- C6: when a membership for `(uid, P)` already exists, the
add-contributor request (issued by the project's author over an existing
user) is rejected with the 400 ValidationError signal and the store is
unchanged; moreover the operation — whatever its inputs — preserves the
`unique_together ("user", "project")` invariant of the membership
table. -/
theorem duplicate_membership_rejected
    (s : Store) (caller pid now uid : Nat) (p : ProjectRec)
    (userField : Option Nat)
    (hp : findProject s pid = some p)
    (hcaller : caller = p.author)
    (huser : s.users.contains uid = true)
    (hdup : membershipExists s uid p.id = true) :
    contributorPost s caller pid now (some uid) = (.badRequest, s) ∧
    (membershipPairsUnique s.contributors →
      membershipPairsUnique
        (contributorPost s caller pid now userField).snd.contributors) := by
  constructor
  · have hbe : (caller == p.author) = true := by simp [hcaller]
    simp only [contributorPost, hp, hbe, Bool.not_true, Bool.false_eq_true,
      if_false, huser, hdup, if_true]
  · intro hu
    exact contributorPost_preserves_unique s caller pid now userField hu

/-- C6 witness: at the fixture, user 2 is already a contributor of
project 1, so the author's attempt to add them again returns the 400
signal and leaves the store unchanged; the uniqueness invariant holds
afterwards. -/
theorem duplicate_membership_rejected_witness :
    contributorPost fixStore 1 1 9 (some 2) = (.badRequest, fixStore) ∧
      membershipPairsUnique
        (contributorPost fixStore 1 1 9 (some 2)).snd.contributors := by
  have h := duplicate_membership_rejected fixStore 1 1 9 2 fixProject (some 2)
    (by decide) (by decide) (by decide) (by decide)
  exact ⟨h.1, h.2 (by decide)⟩

/-- The Python tuple comparison in `validate_date_birth`, read as a
proposition. -/
theorem birthdayPending_iff {t b : Date} :
    birthdayPending t b = true ↔
      t.month < b.month ∨ (t.month = b.month ∧ t.day < b.day) := by
  unfold birthdayPending
  simp [Bool.or_eq_true, Bool.and_eq_true, decide_eq_true_eq]

/-- The computed age, written out as the claim's arithmetic: current
year minus birth year, minus one when (month, day) of today precedes
(month, day) of the birth date. -/
theorem computeAge_eq (t b : Date) :
    computeAge t b =
      (t.year : Int) - b.year -
        (if t.month < b.month ∨ (t.month = b.month ∧ t.day < b.day)
         then 1 else 0) := by
  unfold computeAge
  congr 1
  by_cases h : t.month < b.month ∨ (t.month = b.month ∧ t.day < b.day)
  · rw [if_pos h, if_pos (birthdayPending_iff.mpr h)]
  · rw [if_neg h, if_neg (fun hb => h (birthdayPending_iff.mp hb))]

/-- C7: for an otherwise-valid registration payload, user creation is
rejected with the 400 ValidationError signal exactly when
`today.year - birth.year`, minus one when the birthday is still pending
this year, is below 15 — and an age of exactly 15 registers the user. -/
theorem registration_minimum_age
    (users : List UserRec) (today : Date) (pl : UserPayload)
    (hname : pl.username ≠ "")
    (hlen : pl.username.length ≤ 150)
    (hunique : (users.any (fun u => u.username == pl.username)) = false) :
    ((userPost users today pl).fst = .badRequest ↔
      (today.year : Int) - pl.dateBirth.year -
        (if today.month < pl.dateBirth.month ∨
            (today.month = pl.dateBirth.month ∧ today.day < pl.dateBirth.day)
         then 1 else 0) < 15) ∧
    ((today.year : Int) - pl.dateBirth.year -
        (if today.month < pl.dateBirth.month ∨
            (today.month = pl.dateBirth.month ∧ today.day < pl.dateBirth.day)
         then 1 else 0) = 15 →
      ∃ u, userPost users today pl = (.created u, users ++ [u]) ∧
        u.username = pl.username ∧ u.dateBirth = pl.dateBirth) := by
  have hv : validUserPayload users today pl = validateDateBirth today pl.dateBirth := by
    unfold validUserPayload
    simp [hname, hlen, hunique]
  rw [← computeAge_eq today pl.dateBirth]
  constructor
  · by_cases hb : validateDateBirth today pl.dateBirth = true
    · have hage : ¬ computeAge today pl.dateBirth < 15 := by
        unfold validateDateBirth at hb
        simpa using hb
      simp only [userPost, hv, hb, if_true]
      exact iff_of_false (by simp) hage
    · rw [Bool.not_eq_true] at hb
      have hage : computeAge today pl.dateBirth < 15 := by
        unfold validateDateBirth at hb
        simpa using hb
      simp only [userPost, hv, hb, Bool.false_eq_true, if_false]
      exact iff_of_true trivial hage
  · intro h15
    have hb : validateDateBirth today pl.dateBirth = true := by
      unfold validateDateBirth
      simp [h15]
    simp only [userPost, hv, hb, if_true]
    exact ⟨_, rfl, rfl, rfl⟩

/-- C7 witness: on 2026-10-12, a user born 2011-10-12 (exactly 15 today)
registers with 201, and a user born 2012-01-01 (14) is rejected with the
400 signal. -/
theorem registration_minimum_age_witness :
    (∃ u, userPost [] ⟨2026, 10, 12⟩
        { username := "alice", firstName := "", lastName := "",
          dateBirth := ⟨2011, 10, 12⟩, canBeContacted := false,
          canDataBeShared := false } =
      (.created u, [] ++ [u]) ∧ u.username = "alice" ∧
        u.dateBirth = ⟨2011, 10, 12⟩) ∧
    (userPost [] ⟨2026, 10, 12⟩
        { username := "bob", firstName := "", lastName := "",
          dateBirth := ⟨2012, 1, 1⟩, canBeContacted := false,
          canDataBeShared := false }).fst = .badRequest := by
  have h15 := registration_minimum_age [] ⟨2026, 10, 12⟩
    { username := "alice", firstName := "", lastName := "",
      dateBirth := ⟨2011, 10, 12⟩, canBeContacted := false,
      canDataBeShared := false } (by decide) (by decide) (by decide)
  have h14 := registration_minimum_age [] ⟨2026, 10, 12⟩
    { username := "bob", firstName := "", lastName := "",
      dateBirth := ⟨2012, 1, 1⟩, canBeContacted := false,
      canDataBeShared := false } (by decide) (by decide) (by decide)
  exact ⟨h15.2 (by decide), h14.1.mpr (by decide)⟩

/-- A resolved project carries the requested pk. -/
theorem findProject_id {s : Store} {pid : Nat} {p : ProjectRec}
    (h : findProject s pid = some p) : p.id = pid := by
  unfold findProject at h
  have hb := List.find?_some h
  simp only [beq_iff_eq] at hb
  exact hb

/-- A resolved issue carries the requested pk and parent project. -/
theorem findIssueIn_props {s : Store} {iid pid : Nat} {i : IssueRec}
    (h : findIssueIn s iid pid = some i) : i.id = iid ∧ i.project = pid := by
  unfold findIssueIn at h
  have hb := List.find?_some h
  simp only [Bool.and_eq_true, beq_iff_eq] at hb
  exact hb

/-- A resolved comment carries the requested uuid and parent issue. -/
theorem findCommentIn_props {s : Store} {cuid iid : Nat} {c : CommentRec}
    (h : findCommentIn s cuid iid = some c) : c.uuid = cuid ∧ c.issue = iid := by
  unfold findCommentIn at h
  have hb := List.find?_some h
  simp only [Bool.and_eq_true, beq_iff_eq] at hb
  exact hb

/-- C10: the user-directory handlers consult no ownership or membership
predicate: every operation's outcome is identical for any two
authenticated callers, and over an existing record the list, read and
delete succeed unconditionally while an update succeeds for any caller
whenever its payload validates. -/
theorem user_endpoints_ungated
    (users : List UserRec) (today : Date) (caller caller2 uid : Nat)
    (u : UserRec) (pat : UserPatchPayload) (pf : UserPayload)
    (hu : findUser users uid = some u) :
    userListGet users caller = userListGet users caller2 ∧
    userDetailGet users caller uid = userDetailGet users caller2 uid ∧
    userPatch users today caller uid pat = userPatch users today caller2 uid pat ∧
    userPut users today caller uid pf = userPut users today caller2 uid pf ∧
    userDelete users caller uid = userDelete users caller2 uid ∧
    (userListGet users caller).fst = .ok users ∧
    (userDetailGet users caller uid).fst = .ok u ∧
    (userDelete users caller uid).fst = .noContent ∧
    (validUserPatch users today u pat = true →
      ∃ u1, (userPatch users today caller uid pat).fst = .ok u1) := by
  refine ⟨rfl, rfl, rfl, rfl, rfl, rfl, ?_, ?_, ?_⟩
  · simp only [userDetailGet, hu]
  · simp only [userDelete, hu]
  · intro hval
    simp only [userPatch, hu, hval, if_true]
    exact ⟨_, rfl⟩

/-- C10 witness: with two user records on file, caller 5 — unrelated to
user 1 — reads, updates and deletes user 1's account, and the outcomes
match caller 9's. -/
theorem user_endpoints_ungated_witness :
    (userDetailGet
        [{ id := 1, username := "alice", firstName := "", lastName := "",
           dateBirth := ⟨2000, 1, 1⟩, canBeContacted := true,
           canDataBeShared := false },
         { id := 2, username := "bob", firstName := "", lastName := "",
           dateBirth := ⟨1990, 6, 15⟩, canBeContacted := false,
           canDataBeShared := false }] 5 1).fst =
      .ok { id := 1, username := "alice", firstName := "", lastName := "",
            dateBirth := ⟨2000, 1, 1⟩, canBeContacted := true,
            canDataBeShared := false } ∧
    (userDelete
        [{ id := 1, username := "alice", firstName := "", lastName := "",
           dateBirth := ⟨2000, 1, 1⟩, canBeContacted := true,
           canDataBeShared := false },
         { id := 2, username := "bob", firstName := "", lastName := "",
           dateBirth := ⟨1990, 6, 15⟩, canBeContacted := false,
           canDataBeShared := false }] 5 1).fst = .noContent ∧
    (∃ u1, (userPatch
        [{ id := 1, username := "alice", firstName := "", lastName := "",
           dateBirth := ⟨2000, 1, 1⟩, canBeContacted := true,
           canDataBeShared := false },
         { id := 2, username := "bob", firstName := "", lastName := "",
           dateBirth := ⟨1990, 6, 15⟩, canBeContacted := false,
           canDataBeShared := false }] ⟨2026, 10, 12⟩ 5 1
        { username := none, firstName := none, lastName := none,
          dateBirth := none, canBeContacted := none,
          canDataBeShared := some true }).fst = .ok u1) := by
  have h := user_endpoints_ungated
    [{ id := 1, username := "alice", firstName := "", lastName := "",
       dateBirth := ⟨2000, 1, 1⟩, canBeContacted := true,
       canDataBeShared := false },
     { id := 2, username := "bob", firstName := "", lastName := "",
       dateBirth := ⟨1990, 6, 15⟩, canBeContacted := false,
       canDataBeShared := false }] ⟨2026, 10, 12⟩ 5 9 1
    { id := 1, username := "alice", firstName := "", lastName := "",
      dateBirth := ⟨2000, 1, 1⟩, canBeContacted := true,
      canDataBeShared := false }
    { username := none, firstName := none, lastName := none,
      dateBirth := none, canBeContacted := none, canDataBeShared := some true }
    { username := "alice", firstName := "", lastName := "",
      dateBirth := ⟨2000, 1, 1⟩, canBeContacted := true,
      canDataBeShared := false }
    (by decide)
  exact ⟨h.2.2.2.2.2.2.1, h.2.2.2.2.2.2.2.1, h.2.2.2.2.2.2.2.2 (by decide)⟩

/-- C8: client-supplied values for the server-assigned fields are
ignored on every create and update of a project, issue or comment: each
handler's outcome is invariant under arbitrary replacement of those
payload fields; on create the author is the caller, an issue's project
and a comment's issue come from the resolved parents, and a comment's
uuid and timestamp are server-generated; on update (partial or full) the
server-assigned fields keep their prior values. -/
theorem server_fields_ignored
    (s : Store) (caller pid iid cuid now fresh : Nat)
    (p : ProjectRec) (i : IssueRec) (c : CommentRec)
    (plP : ProjectPayload) (plPp : ProjectPatchPayload)
    (plI : IssuePayload) (plIp : IssuePatchPayload)
    (plC : CommentPayload) (plCp : CommentPatchPayload)
    (hp : findProject s pid = some p)
    (hi : findIssueIn s iid p.id = some i)
    (hc : findCommentIn s cuid i.id = some c) :
    ((∀ a ct fault,
        projectPost s caller now { plP with author := a, createdTime := ct } fault =
          projectPost s caller now plP fault) ∧
      (∀ r s2, projectPost s caller now plP false = (.created r, s2) →
        r.author = caller ∧ r.createdTime = now) ∧
      (∀ a ct,
        projectPatch s caller pid { plPp with author := a, createdTime := ct } =
          projectPatch s caller pid plPp) ∧
      (∀ r s2, projectPatch s caller pid plPp = (.ok r, s2) →
        r.id = p.id ∧ r.author = p.author ∧ r.createdTime = p.createdTime) ∧
      (∀ a ct,
        projectPut s caller pid { plP with author := a, createdTime := ct } =
          projectPut s caller pid plP) ∧
      (∀ r s2, projectPut s caller pid plP = (.ok r, s2) →
        r.id = p.id ∧ r.author = p.author ∧ r.createdTime = p.createdTime)) ∧
    ((∀ a pr ct,
        issuePost s caller pid now { plI with author := a, project := pr, createdTime := ct } =
          issuePost s caller pid now plI) ∧
      (∀ r s2, issuePost s caller pid now plI = (.created r, s2) →
        r.author = caller ∧ r.project = pid ∧ r.createdTime = now) ∧
      (∀ a pr ct,
        issuePatch s caller pid iid { plIp with author := a, project := pr, createdTime := ct } =
          issuePatch s caller pid iid plIp) ∧
      (∀ r s2, issuePatch s caller pid iid plIp = (.ok r, s2) →
        r.id = i.id ∧ r.author = i.author ∧ r.project = i.project ∧
          r.createdTime = i.createdTime) ∧
      (∀ a pr ct,
        issuePut s caller pid iid { plI with author := a, project := pr, createdTime := ct } =
          issuePut s caller pid iid plI) ∧
      (∀ r s2, issuePut s caller pid iid plI = (.ok r, s2) →
        r.id = i.id ∧ r.author = i.author ∧ r.project = i.project ∧
          r.createdTime = i.createdTime)) ∧
    ((∀ uu a isf ct,
        commentPost s caller pid iid now fresh
            { plC with uuid := uu, author := a, issue := isf, createdTime := ct } =
          commentPost s caller pid iid now fresh plC) ∧
      (∀ r s2, commentPost s caller pid iid now fresh plC = (.created r, s2) →
        r.author = caller ∧ r.issue = i.id ∧ r.uuid = fresh ∧ r.createdTime = now) ∧
      (∀ uu a isf ct,
        commentPatch s caller pid iid cuid
            { plCp with uuid := uu, author := a, issue := isf, createdTime := ct } =
          commentPatch s caller pid iid cuid plCp) ∧
      (∀ r s2, commentPatch s caller pid iid cuid plCp = (.ok r, s2) →
        r.uuid = c.uuid ∧ r.author = c.author ∧ r.issue = c.issue ∧
          r.createdTime = c.createdTime) ∧
      (∀ uu a isf ct,
        commentPut s caller pid iid cuid
            { plC with uuid := uu, author := a, issue := isf, createdTime := ct } =
          commentPut s caller pid iid cuid plC) ∧
      (∀ r s2, commentPut s caller pid iid cuid plC = (.ok r, s2) →
        r.uuid = c.uuid ∧ r.author = c.author ∧ r.issue = c.issue ∧
          r.createdTime = c.createdTime)) := by
  refine ⟨⟨?_, ?_, ?_, ?_, ?_, ?_⟩, ⟨?_, ?_, ?_, ?_, ?_, ?_⟩, ⟨?_, ?_, ?_, ?_, ?_, ?_⟩⟩
  · intro a ct fault
    rfl
  · intro r s2 h
    by_cases hval : validProjectPayload plP = true
    · simp only [projectPost, hval, if_true, Bool.false_eq_true, if_false,
        Prod.mk.injEq, HResp.created.injEq] at h
      rw [← h.1]
      exact ⟨rfl, rfl⟩
    · rw [Bool.not_eq_true] at hval
      simp only [projectPost, hval, Bool.false_eq_true, if_false,
        Prod.mk.injEq] at h
      exact HResp.noConfusion h.1
  · intro a ct
    rfl
  · intro r s2 h
    simp only [projectPatch, hp] at h
    by_cases hauth : (p.author == caller) = true
    · simp only [hauth, if_true] at h
      by_cases hval : validProjectPatch plPp = true
      · simp only [hval, if_true, Prod.mk.injEq, HResp.ok.injEq] at h
        rw [← h.1]
        exact ⟨rfl, rfl, rfl⟩
      · rw [Bool.not_eq_true] at hval
        simp only [hval, Bool.false_eq_true, if_false, Prod.mk.injEq] at h
        exact HResp.noConfusion h.1
    · rw [Bool.not_eq_true] at hauth
      simp only [hauth, Bool.false_eq_true, if_false, Prod.mk.injEq] at h
      exact HResp.noConfusion h.1
  · intro a ct
    rfl
  · intro r s2 h
    simp only [projectPut, hp] at h
    by_cases hauth : (p.author == caller) = true
    · simp only [hauth, Bool.not_true, Bool.false_eq_true, if_false] at h
      by_cases hval : validProjectPayload plP = true
      · simp only [hval, if_true, Prod.mk.injEq, HResp.ok.injEq] at h
        rw [← h.1]
        exact ⟨rfl, rfl, rfl⟩
      · rw [Bool.not_eq_true] at hval
        simp only [hval, Bool.false_eq_true, if_false, Prod.mk.injEq] at h
        exact HResp.noConfusion h.1
    · rw [Bool.not_eq_true] at hauth
      simp only [hauth, Bool.not_false, if_true, Prod.mk.injEq] at h
      exact HResp.noConfusion h.1
  · intro a pr ct
    rfl
  · intro r s2 h
    simp only [issuePost, hp] at h
    by_cases hmem : membershipExists s caller p.id = true
    · simp only [hmem, Bool.not_true, Bool.false_eq_true, if_false] at h
      by_cases hval : validIssuePayload s plI = true
      · simp only [hval, if_true, Prod.mk.injEq, HResp.created.injEq] at h
        rw [← h.1]
        exact ⟨rfl, findProject_id hp, rfl⟩
      · rw [Bool.not_eq_true] at hval
        simp only [hval, Bool.false_eq_true, if_false, Prod.mk.injEq] at h
        exact HResp.noConfusion h.1
    · rw [Bool.not_eq_true] at hmem
      simp only [hmem, Bool.not_false, if_true, Prod.mk.injEq] at h
      exact HResp.noConfusion h.1
  · intro a pr ct
    rfl
  · intro r s2 h
    simp only [issuePatch, hp, hi] at h
    by_cases hperm : issueObjectPermission s caller i = true
    · simp only [hperm, if_true] at h
      by_cases hval : validIssuePatch s plIp = true
      · simp only [hval, if_true, Prod.mk.injEq, HResp.ok.injEq] at h
        rw [← h.1]
        exact ⟨rfl, (issuePerm_author hperm).symm,
          ((findIssueIn_props hi).2).symm, rfl⟩
      · rw [Bool.not_eq_true] at hval
        simp only [hval, Bool.false_eq_true, if_false, Prod.mk.injEq] at h
        exact HResp.noConfusion h.1
    · rw [Bool.not_eq_true] at hperm
      simp only [hperm, Bool.false_eq_true, if_false, Prod.mk.injEq] at h
      exact HResp.noConfusion h.1
  · intro a pr ct
    rfl
  · intro r s2 h
    simp only [issuePut, hp, hi] at h
    by_cases hperm : issueObjectPermission s caller i = true
    · simp only [hperm, if_true] at h
      by_cases hval : validIssuePayload s plI = true
      · simp only [hval, if_true, Prod.mk.injEq, HResp.ok.injEq] at h
        rw [← h.1]
        exact ⟨rfl, (issuePerm_author hperm).symm,
          ((findIssueIn_props hi).2).symm, rfl⟩
      · rw [Bool.not_eq_true] at hval
        simp only [hval, Bool.false_eq_true, if_false, Prod.mk.injEq] at h
        exact HResp.noConfusion h.1
    · rw [Bool.not_eq_true] at hperm
      simp only [hperm, Bool.false_eq_true, if_false, Prod.mk.injEq] at h
      exact HResp.noConfusion h.1
  · intro uu a isf ct
    rfl
  · intro r s2 h
    simp only [commentPost, hp, hi] at h
    by_cases hmem : membershipExists s caller p.id = true
    · simp only [hmem, Bool.not_true, Bool.false_eq_true, if_false] at h
      by_cases hval : validCommentPayload plC = true
      · simp only [hval, if_true, Prod.mk.injEq, HResp.created.injEq] at h
        rw [← h.1]
        exact ⟨rfl, rfl, rfl, rfl⟩
      · rw [Bool.not_eq_true] at hval
        simp only [hval, Bool.false_eq_true, if_false, Prod.mk.injEq] at h
        exact HResp.noConfusion h.1
    · rw [Bool.not_eq_true] at hmem
      simp only [hmem, Bool.not_false, if_true, Prod.mk.injEq] at h
      exact HResp.noConfusion h.1
  · intro uu a isf ct
    rfl
  · intro r s2 h
    simp only [commentPatch, hp, hi, hc] at h
    by_cases hperm : commentObjectPermission s caller c = true
    · simp only [hperm, if_true] at h
      by_cases hval : validCommentPatch plCp = true
      · simp only [hval, if_true, Prod.mk.injEq, HResp.ok.injEq] at h
        rw [← h.1]
        exact ⟨rfl, rfl, rfl, rfl⟩
      · rw [Bool.not_eq_true] at hval
        simp only [hval, Bool.false_eq_true, if_false, Prod.mk.injEq] at h
        exact HResp.noConfusion h.1
    · rw [Bool.not_eq_true] at hperm
      simp only [hperm, Bool.false_eq_true, if_false, Prod.mk.injEq] at h
      exact HResp.noConfusion h.1
  · intro uu a isf ct
    rfl
  · intro r s2 h
    simp only [commentPut, hp, hi, hc] at h
    by_cases hperm : commentObjectPermission s caller c = true
    · simp only [hperm, if_true] at h
      by_cases hval : validCommentPayload plC = true
      · simp only [hval, if_true, Prod.mk.injEq, HResp.ok.injEq] at h
        rw [← h.1]
        exact ⟨rfl, rfl, rfl, rfl⟩
      · rw [Bool.not_eq_true] at hval
        simp only [hval, Bool.false_eq_true, if_false, Prod.mk.injEq] at h
        exact HResp.noConfusion h.1
    · rw [Bool.not_eq_true] at hperm
      simp only [hperm, Bool.false_eq_true, if_false, Prod.mk.injEq] at h
      exact HResp.noConfusion h.1

/-- C8 witness: at the fixture, creating an issue with bogus
client-supplied `author`/`project`/`created_time` values gives exactly
the same outcome as without them, and the status-only PATCH on issue 1
keeps the stored author untouched. -/
theorem server_fields_ignored_witness :
    issuePost fixStore 1 1 5
        { fixIssuePl with author := some 42, project := some 7, createdTime := some 99 } =
      issuePost fixStore 1 1 5 fixIssuePl ∧
    ({ id := 1, createdTime := 0, author := 1, assignee := none, project := 1,
        status := "in_progress", priority := "medium", tag := "feature",
        title := "Bug 1", description := "first bug" } : IssueRec).author =
      fixIssue.author := by
  have h := server_fields_ignored fixStore 1 1 1 7 5 99 fixProject fixIssue fixComment
    fixProjectPl fixProjectPatchPl fixIssuePl fixIssuePatchPl fixCommentPl
    fixCommentPatchPl (by decide) (by decide) (by decide)
  refine ⟨h.2.1.1 (some 42) (some 7) (some 99), ?_⟩
  have h4 := h.2.1.2.2.2.1
    { id := 1, createdTime := 0, author := 1, assignee := none, project := 1,
      status := "in_progress", priority := "medium", tag := "feature",
      title := "Bug 1", description := "first bug" }
    (updateIssue fixStore
      { id := 1, createdTime := 0, author := 1, assignee := none, project := 1,
        status := "in_progress", priority := "medium", tag := "feature",
        title := "Bug 1", description := "first bug" })
    (by decide)
  exact h4.2.1

/-- Every member of a list of naturals is bounded by the running
maximum. -/
theorem le_foldr_max {l : List Nat} {a : Nat} (h : a ∈ l) :
    a ≤ l.foldr max 0 := by
  induction l with
  | nil => cases h
  | cons b t ih =>
    rcases List.mem_cons.mp h with rfl | ht
    · exact le_max_left _ _
    · exact le_trans (ih ht) (le_max_right _ _)

/-- No existing project row carries the freshly drawn pk. -/
theorem project_id_fresh {s : Store} {q : ProjectRec} (h : q ∈ s.projects) :
    (q.id == nextProjectId s) = false := by
  have hle : q.id ≤ (s.projects.map ProjectRec.id).foldr max 0 :=
    le_foldr_max (List.mem_map_of_mem ProjectRec.id h)
  have : q.id ≠ nextProjectId s := Nat.ne_of_lt (Nat.lt_succ_of_le hle)
  simp [this]

/-- No existing issue row carries the freshly drawn pk. -/
theorem issue_id_fresh {s : Store} {j : IssueRec} (h : j ∈ s.issues) :
    (j.id == nextIssueId s) = false := by
  have hle : j.id ≤ (s.issues.map IssueRec.id).foldr max 0 :=
    le_foldr_max (List.mem_map_of_mem IssueRec.id h)
  have : j.id ≠ nextIssueId s := Nat.ne_of_lt (Nat.lt_succ_of_le hle)
  simp [this]

/-- Round trip for projects: a valid create immediately reads back with
the submitted writable fields. -/
theorem project_roundtrip_aux (s : Store) (caller now : Nat) (pl : ProjectPayload)
    (hval : validProjectPayload pl = true) :
    ∃ r s2, projectPost s caller now pl false = (.created r, s2) ∧
      projectDetailGet s2 caller r.id = (.ok r, s2) ∧
      r.name = pl.name ∧ r.description = pl.description ∧
      r.projectType = pl.projectType := by
  simp only [projectPost, hval, if_true, Bool.false_eq_true, if_false]
  refine ⟨_, _, rfl, ?_, rfl, rfl, rfl⟩
  have hnone : List.find?
      (fun q : ProjectRec => q.id == nextProjectId s) s.projects = none :=
    List.find?_eq_none.mpr (fun q hq => by simp [project_id_fresh hq])
  simp only [projectDetailGet, findProject, List.find?_append, hnone,
    List.find?_cons, beq_self_eq_true, membershipExists,
    List.any_append, List.any_cons, List.any_nil, Bool.and_self, Bool.or_true,
    if_true]
  simp

/-- Round trip for issues: a valid create by a contributor immediately
reads back with the submitted writable fields. -/
theorem issue_roundtrip_aux (s : Store) (caller pid now : Nat) (pl : IssuePayload)
    (p : ProjectRec)
    (hp : findProject s pid = some p)
    (hmem : membershipExists s caller p.id = true)
    (hval : validIssuePayload s pl = true) :
    ∃ r s2, issuePost s caller pid now pl = (.created r, s2) ∧
      issueDetailGet s2 caller pid r.id = (.ok r, s2) ∧
      r.title = pl.title ∧ r.description = pl.description ∧
      r.status = pl.status ∧ r.priority = pl.priority ∧
      r.tag = pl.tag ∧ r.assignee = pl.assignee := by
  simp only [issuePost, hp, hmem, Bool.not_true, Bool.false_eq_true, if_false,
    hval, if_true]
  refine ⟨_, _, rfl, ?_, rfl, rfl, rfl, rfl, rfl, rfl⟩
  have hnone : List.find?
      (fun j : IssueRec => j.id == nextIssueId s && j.project == p.id)
      s.issues = none :=
    List.find?_eq_none.mpr (fun j hj => by simp [issue_id_fresh hj])
  have hp2 : List.find? (fun q : ProjectRec => q.id == pid) s.projects = some p := hp
  have hmem2 :
      (s.contributors.any fun c => c.user == caller && c.project == p.id) = true :=
    hmem
  simp only [issueDetailGet, findProject, hp2, findIssueIn, List.find?_append,
    hnone, Option.none_or, List.find?_cons, beq_self_eq_true, Bool.and_self,
    Bool.true_and, Bool.and_true, if_true, issueObjectPermission,
    isContributorIssue, isAuthorOf, membershipExists, hmem2]

/-- Round trip for comments: a valid create by a contributor immediately
reads back with the submitted description. -/
theorem comment_roundtrip_aux (s : Store) (caller pid iid now fresh : Nat)
    (pl : CommentPayload) (p : ProjectRec) (i : IssueRec)
    (hp : findProject s pid = some p)
    (hi : findIssueIn s iid p.id = some i)
    (hipk : findIssuePk s i.id = some i)
    (hmem : membershipExists s caller p.id = true)
    (hfresh : ∀ d ∈ s.comments, (d.uuid == fresh) = false)
    (hval : validCommentPayload pl = true) :
    ∃ r s2, commentPost s caller pid iid now fresh pl = (.created r, s2) ∧
      commentDetailGet s2 caller pid iid r.uuid = (.ok r, s2) ∧
      r.description = pl.description := by
  simp only [commentPost, hp, hi, hmem, Bool.not_true, Bool.false_eq_true,
    if_false, hval, if_true]
  refine ⟨_, _, rfl, ?_, rfl⟩
  have hnone : List.find?
      (fun d : CommentRec => d.uuid == fresh && d.issue == i.id)
      s.comments = none :=
    List.find?_eq_none.mpr (fun d hd => by simp [hfresh d hd])
  have hp2 : List.find? (fun q : ProjectRec => q.id == pid) s.projects = some p := hp
  have hi2 : List.find? (fun j : IssueRec => j.id == iid && j.project == p.id)
      s.issues = some i := hi
  have hipk2 : List.find? (fun j : IssueRec => j.id == i.id) s.issues = some i := hipk
  have hmem2 :
      (s.contributors.any fun c => c.user == caller && c.project == p.id) = true :=
    hmem
  have hproj : i.project = p.id := (findIssueIn_props hi).2
  simp only [commentDetailGet, findProject, hp2, findIssueIn, hi2,
    findCommentIn, List.find?_append, hnone, Option.none_or, List.find?_cons,
    beq_self_eq_true, Bool.and_self, Bool.true_and, Bool.and_true, if_true,
    commentObjectPermission, isContributorComment, findIssuePk, hipk2,
    isAuthorOf, membershipExists, hproj, hmem2]

/-- C9: creating a project, an issue or a comment from a valid payload
as an authorized caller and immediately reading the entity back returns
exactly the submitted writable field values; only the server-assigned
fields (pk/uuid, timestamp, author, parent links) differ from the
payload. -/
theorem entity_create_read_roundtrip
    (s : Store) (caller pid iid now fresh : Nat)
    (plP : ProjectPayload) (plI : IssuePayload) (plC : CommentPayload)
    (p : ProjectRec) (i : IssueRec)
    (hp : findProject s pid = some p)
    (hi : findIssueIn s iid p.id = some i)
    (hipk : findIssuePk s i.id = some i)
    (hmem : membershipExists s caller p.id = true)
    (hfresh : ∀ d ∈ s.comments, (d.uuid == fresh) = false)
    (hvP : validProjectPayload plP = true)
    (hvI : validIssuePayload s plI = true)
    (hvC : validCommentPayload plC = true) :
    (∃ r s2, projectPost s caller now plP false = (.created r, s2) ∧
      projectDetailGet s2 caller r.id = (.ok r, s2) ∧
      r.name = plP.name ∧ r.description = plP.description ∧
      r.projectType = plP.projectType) ∧
    (∃ r s2, issuePost s caller pid now plI = (.created r, s2) ∧
      issueDetailGet s2 caller pid r.id = (.ok r, s2) ∧
      r.title = plI.title ∧ r.description = plI.description ∧
      r.status = plI.status ∧ r.priority = plI.priority ∧
      r.tag = plI.tag ∧ r.assignee = plI.assignee) ∧
    (∃ r s2, commentPost s caller pid iid now fresh plC = (.created r, s2) ∧
      commentDetailGet s2 caller pid iid r.uuid = (.ok r, s2) ∧
      r.description = plC.description) :=
  ⟨project_roundtrip_aux s caller now plP hvP,
   issue_roundtrip_aux s caller pid now plI p hp hmem hvI,
   comment_roundtrip_aux s caller pid iid now fresh plC p i hp hi hipk hmem
     hfresh hvC⟩

/-- C9 witness: at the fixture, contributor user 2 creates a project, an
issue under project 1 and a comment under issue 1 and reads each back
unchanged. -/
theorem entity_create_read_roundtrip_witness :
    (∃ r s2, projectPost fixStore 2 5 fixProjectPl false = (.created r, s2) ∧
      projectDetailGet s2 2 r.id = (.ok r, s2) ∧
      r.name = fixProjectPl.name ∧ r.description = fixProjectPl.description ∧
      r.projectType = fixProjectPl.projectType) ∧
    (∃ r s2, issuePost fixStore 2 1 5 fixIssuePl = (.created r, s2) ∧
      issueDetailGet s2 2 1 r.id = (.ok r, s2) ∧
      r.title = fixIssuePl.title ∧ r.description = fixIssuePl.description ∧
      r.status = fixIssuePl.status ∧ r.priority = fixIssuePl.priority ∧
      r.tag = fixIssuePl.tag ∧ r.assignee = fixIssuePl.assignee) ∧
    (∃ r s2, commentPost fixStore 2 1 1 5 99 fixCommentPl = (.created r, s2) ∧
      commentDetailGet s2 2 1 1 r.uuid = (.ok r, s2) ∧
      r.description = fixCommentPl.description) :=
  entity_create_read_roundtrip fixStore 2 1 1 5 99 fixProjectPl fixIssuePl
    fixCommentPl fixProject fixIssue (by decide) (by decide) (by decide)
    (by decide) (by decide) (by decide) (by decide) (by decide)

end SoftDesk
